import Mathlib

/-!
Shallow embedding of the typed bump-pointer arena allocator in
`src/src/lib.rs` (module `arena`), and proofs about its behaviour.

The element type `T` is represented by its `Layout` (byte size and natural
alignment), since the allocator's bookkeeping depends only on those.  Raw
pointers are modelled as natural-number addresses.  The system allocator is
modelled as a counter handing out fresh, pairwise-disjoint regions.
-/

namespace Arena

/-- `std::alloc::Layout`: a size in bytes and an alignment.
`Layout::new::<T>()` is the element's size together with its natural
alignment; `Layout::from_size_align_unchecked(s, a)` is just `⟨s, a⟩`
(the `unchecked` variant performs no validity check on `a`). -/
structure Layout where
  size : Nat
  align : Nat
deriving DecidableEq, Repr

/-- `const BLOCK_SIZE: usize = 4096;` -/
def BLOCK_SIZE : Nat := 4096

/-- `struct Block { ptr: *mut u8, layout: Layout, count_of_elements: usize }` -/
structure Block where
  ptr : Nat
  layout : Layout
  count_of_elements : Nat
deriving DecidableEq, Repr

/-- `struct Internal<'a, T>`: the arena's bookkeeping fields
(`blocks`, `bytes`, `alloc_bytes_remaining`, `alloc_ptr`).  The
`PhantomData` marker has no runtime content and is omitted. -/
structure Internal where
  blocks : List Block
  bytes : Nat
  alloc_bytes_remaining : Nat
  alloc_ptr : Nat
deriving DecidableEq, Repr

/-- `Internal::new()`: empty block list, zero counters, null bump pointer. -/
def Internal.new : Internal :=
  { blocks := [], bytes := 0, alloc_bytes_remaining := 0, alloc_ptr := 0 }

/-- Modelled from the spec: the system allocator's
`acquire(size, alignment) -> raw memory region` hands out a fresh region
disjoint from every previously acquired region.  We model its state as the
next fresh address; acquiring a region of `size` bytes returns the current
address and advances the state past the region. -/
def sysAcquire (sys : Nat) (l : Layout) : Nat × Nat :=
  (sys + l.size, sys)

/-- `blocks.last_mut().map(|b| b.count_of_elements += 1)`: increment the
element count of the last block, when the list is nonempty. -/
def bumpLast : List Block → List Block
  | [] => []
  | [b] => [{ b with count_of_elements := b.count_of_elements + 1 }]
  | b :: bs => b :: bumpLast bs

/-- Result of one `Internal::alloc` call: the updated arena state, the
updated system-allocator state, and the address returned to the caller. -/
structure AllocOut where
  st : Internal
  sys : Nat
  ptr : Nat
deriving DecidableEq, Repr

/-- `Internal::alloc(&mut self, data: T)` from `src/src/lib.rs`, lines
36–63, for an element type with layout `elem = Layout::new::<T>()`.

Mirrors the source exactly, including the mutation of the local `layout`
variable inside the new-block branch: after that branch, the epilogue
subtracts `layout.size()` (the possibly-replaced layout) from
`alloc_bytes_remaining` and advances `alloc_ptr` by it. -/
def Internal.alloc (elem : Layout) (s : Internal) (sys : Nat) : AllocOut :=
  let layout := elem
  let (s1, sys1, layout1) :=
    if layout.size > s.alloc_bytes_remaining then
      -- self.alloc_bytes_remaining = layout.size();
      let s := { s with alloc_bytes_remaining := layout.size }
      let (layout, s) :=
        if layout.size ≤ BLOCK_SIZE then
          -- layout = Layout::from_size_align_unchecked(BLOCK_SIZE, 0);
          -- self.alloc_bytes_remaining = BLOCK_SIZE;
          (Layout.mk BLOCK_SIZE 0, { s with alloc_bytes_remaining := BLOCK_SIZE })
        else
          (layout, s)
      -- self.bytes += layout.size();
      let s := { s with bytes := s.bytes + layout.size }
      -- let block_ptr = alloc(layout);
      let (sys, block_ptr) := sysAcquire sys layout
      -- self.blocks.push(Block { ptr, layout, count_of_elements: 0 });
      -- self.alloc_ptr = block_ptr;
      let s := { s with
                  blocks := s.blocks ++ [⟨block_ptr, layout, 0⟩],
                  alloc_ptr := block_ptr }
      (s, sys, layout)
    else
      (s, sys, layout)
  -- self.alloc_bytes_remaining -= layout.size();
  let s2 := { s1 with alloc_bytes_remaining := s1.alloc_bytes_remaining - layout1.size }
  -- let ptr = self.alloc_ptr; self.alloc_ptr = self.alloc_ptr.add(layout.size());
  let p := s2.alloc_ptr
  let s3 := { s2 with alloc_ptr := s2.alloc_ptr + layout1.size }
  -- self.blocks.last_mut().map(|b| b.count_of_elements += 1);
  let s4 := { s3 with blocks := bumpLast s3.blocks }
  -- ptr::write(x, data); return the slot address
  { st := s4, sys := sys1, ptr := p }

/-- State of a whole run: arena bookkeeping, system-allocator state, and
the addresses returned by the `alloc` calls so far, in call order.  Each
`alloc` performs exactly one `ptr::write` at the address it returns, so
`ptrs` is also the trace of slot writes. -/
structure RunOut where
  st : Internal
  sys : Nat
  ptrs : List Nat
deriving DecidableEq, Repr

/-- `Arena::new()` followed by `n` calls of `Arena::alloc` (each of which
delegates to `Internal::alloc` through the `RefCell`). -/
def runAllocs (elem : Layout) : Nat → RunOut
  | 0 => { st := Internal.new, sys := 0, ptrs := [] }
  | n + 1 =>
    let r := runAllocs elem n
    let o := Internal.alloc elem r.st r.sys
    { st := o.st, sys := o.sys, ptrs := r.ptrs ++ [o.ptr] }

/-- `Arena::bytes_allocated()`: returns the `bytes` field. -/
def bytes_allocated (s : Internal) : Nat := s.bytes

/-! ## Teardown (`impl Drop for Internal`, lines 66–81)

Teardown is modelled as the trace of externally visible events it performs:
running the element type's cleanup logic (`drop_in_place`) at an address,
and releasing a block's raw memory back to the system allocator
(`dealloc(ptr, layout)`). -/

/-- One observable teardown event. -/
inductive Ev where
  | cleanup (addr : Nat)
  | blockFree (ptr : Nat) (layout : Layout)
deriving DecidableEq, Repr

/-- The events of dropping one block: for `i in 0..count_of_elements`,
`drop_in_place` at `block.ptr + layout.size() * i` (where `layout` is the
element layout `Layout::new::<T>()`), then `dealloc(block.ptr, block.layout)`. -/
def dropBlock (elemSize : Nat) (b : Block) : List Ev :=
  ((List.range b.count_of_elements).map (fun i => Ev.cleanup (b.ptr + elemSize * i)))
    ++ [Ev.blockFree b.ptr b.layout]

/-- The `for block in self.blocks.iter()` loop of `Drop::drop`, front to
back over the block list. -/
def dropBlocks (elemSize : Nat) : List Block → List Ev
  | [] => []
  | b :: bs => dropBlock elemSize b ++ dropBlocks elemSize bs

/-- The full teardown trace of an arena state. -/
def dropTrace (elemSize : Nat) (s : Internal) : List Ev :=
  dropBlocks elemSize s.blocks

/-- The addresses at which cleanup logic runs, in trace order. -/
def cleanupAddrs : List Ev → List Nat
  | [] => []
  | Ev.cleanup a :: r => a :: cleanupAddrs r
  | Ev.blockFree _ _ :: r => cleanupAddrs r

/-- How many times cleanup logic runs in a trace. -/
def cleanupCount (t : List Ev) : Nat := (cleanupAddrs t).length

/-- The block-release events of a trace: (base address, layout passed to
`dealloc`), in trace order. -/
def freeList : List Ev → List (Nat × Layout)
  | [] => []
  | Ev.blockFree p l :: r => (p, l) :: freeList r
  | Ev.cleanup _ :: r => freeList r

/-- `true` iff no cleanup event in the trace touches an address inside the
region `[p, p + size)`. -/
def noCleanupIn (p size : Nat) : List Ev → Bool
  | [] => true
  | Ev.cleanup a :: r =>
    (if p ≤ a ∧ a < p + size then false else true) && noCleanupIn p size r
  | Ev.blockFree _ _ :: r => noCleanupIn p size r

/-- `true` iff, whenever a block is released, no later event of the trace
runs cleanup at an address inside that block's region: memory is handed
back only after all cleanup inside it is done. -/
def freesAfterCleanups : List Ev → Bool
  | [] => true
  | Ev.blockFree p l :: r => noCleanupIn p l.size r && freesAfterCleanups r
  | Ev.cleanup _ :: r => freesAfterCleanups r

/-! ## The `Arena` wrapper (lines 83–101)

`Arena` stores `Internal` inside a `std::cell::RefCell`, and
`Arena::alloc` calls `self.internal.borrow_mut()` before mutating.
Modelled from the spec: the `RefCell` runtime borrow discipline — the
"single-writer lock that panics/fails if re-entered while already held"
of §5 — is code outside this repository (the standard library), so it is
modelled here as a borrow flag: `borrow_mut` succeeds when the cell is
unborrowed and panics when any borrow is outstanding. -/

/-- Runtime borrow state of the `RefCell` holding `Internal`. -/
inductive BorrowState where
  | unborrowed
  | sharedBorrow (n : Nat)
  | mutBorrow
deriving DecidableEq, Repr

/-- `Arena<'a, T>`: a `RefCell<Internal<'a, T>>`, modelled as the inner
state plus the cell's current borrow flag. -/
structure ArenaCell where
  flag : BorrowState
  inner : Internal
deriving DecidableEq, Repr

/-- Outcome of `Arena::alloc`: either the `borrow_mut` panic
(`BorrowMutError`), leaving the cell as it was, or success with the
updated cell, system state, and returned address. -/
inductive ArenaAllocResult where
  | panicked (a : ArenaCell)
  | ok (a : ArenaCell) (sys : Nat) (ptr : Nat)
deriving DecidableEq, Repr

/-- `Arena::alloc(&self, data: T)`: `self.internal.borrow_mut().alloc(data)`.
If the cell is already borrowed the `borrow_mut` call panics before any
bookkeeping is touched; otherwise the mutable borrow is taken for the
duration of `Internal::alloc` and released afterwards. -/
def arenaAlloc (elem : Layout) (a : ArenaCell) (sys : Nat) : ArenaAllocResult :=
  match a.flag with
  | BorrowState.unborrowed =>
    let o := Internal.alloc elem a.inner sys
    ArenaAllocResult.ok { flag := BorrowState.unborrowed, inner := o.st } o.sys o.ptr
  | _ => ArenaAllocResult.panicked a

end Arena

namespace Arena

/-! ## Helper notions and run-state characterisation -/

/-- The layout the code passes to the system allocator when it creates a
block for elements of layout `elem`: the element layout is replaced by
`(BLOCK_SIZE, 0)` whenever the element fits in a default block. -/
def blkLayout (elem : Layout) : Layout :=
  if elem.size ≤ BLOCK_SIZE then Layout.mk BLOCK_SIZE 0 else elem

/-- The byte capacity of every block created for elements of layout `elem`. -/
def cap (elem : Layout) : Nat := (blkLayout elem).size

theorem bumpLast_append (l : List Block) (b : Block) :
    bumpLast (l ++ [b]) = l ++ [{ b with count_of_elements := b.count_of_elements + 1 }] := by
  induction l with
  | nil => rfl
  | cons x xs ih =>
    cases xs with
    | nil => rfl
    | cons y ys => simp [bumpLast] at ih ⊢; exact ih

theorem cap_pos (elem : Layout) (h : 0 < elem.size) : 0 < cap elem := by
  unfold cap blkLayout
  split
  · simp [BLOCK_SIZE]
  · exact h

theorem size_le_cap (elem : Layout) : elem.size ≤ cap elem := by
  unfold cap blkLayout
  split
  · next hc => simpa using hc
  · simp

/-- Closed form of the run state for a non-zero-sized element type: after
`N` calls, the arena holds `N` blocks, one per call (this is the layout
bug: each new block's full capacity is subtracted from
`alloc_bytes_remaining`, so the fast path is never taken).  Block `i` sits
at address `cap elem * i`, holds exactly one element, and the `i`-th call
returned its base address. -/
theorem runAllocs_closed (elem : Layout) (h : 0 < elem.size) (N : Nat) :
    runAllocs elem N =
      { st := { blocks := (List.range N).map
                  (fun i => Block.mk (cap elem * i) (blkLayout elem) 1),
                bytes := cap elem * N,
                alloc_bytes_remaining := 0,
                alloc_ptr := cap elem * N },
        sys := cap elem * N,
        ptrs := (List.range N).map (fun i => cap elem * i) } := by
  induction N with
  | zero => rfl
  | succ n ih =>
    simp only [runAllocs, ih]
    simp only [Internal.alloc, sysAcquire, blkLayout, cap]
    rw [if_pos (by simpa using h)]
    by_cases hle : elem.size ≤ BLOCK_SIZE
    · simp [hle, bumpLast_append, List.range_succ, Nat.mul_succ]
    · simp [hle, bumpLast_append, List.range_succ, Nat.mul_succ]

/-- Closed form of the run state for a zero-sized element type: no call
ever enters the new-block branch, so the bookkeeping never changes and
every call returns the null address. -/
theorem runAllocs_zst (al : Nat) (N : Nat) :
    runAllocs (Layout.mk 0 al) N =
      { st := Internal.new, sys := 0, ptrs := List.replicate N 0 } := by
  induction N with
  | zero => rfl
  | succ n ih =>
    simp [runAllocs, ih, Internal.alloc, Internal.new, bumpLast, List.replicate_succ']

end Arena

namespace Arena

/-! ## Teardown-trace lemmas -/

theorem dropBlocks_append (sz : Nat) (l l' : List Block) :
    dropBlocks sz (l ++ l') = dropBlocks sz l ++ dropBlocks sz l' := by
  induction l with
  | nil => rfl
  | cons b bs ih => simp [dropBlocks, ih]

theorem cleanupAddrs_append (t u : List Ev) :
    cleanupAddrs (t ++ u) = cleanupAddrs t ++ cleanupAddrs u := by
  induction t with
  | nil => rfl
  | cons e r ih => cases e <;> simp [cleanupAddrs, ih]

theorem freeList_append (t u : List Ev) :
    freeList (t ++ u) = freeList t ++ freeList u := by
  induction t with
  | nil => rfl
  | cons e r ih => cases e <;> simp [freeList, ih]

theorem noCleanupIn_append (p s : Nat) (t u : List Ev) :
    noCleanupIn p s (t ++ u) = (noCleanupIn p s t && noCleanupIn p s u) := by
  induction t with
  | nil => simp [noCleanupIn]
  | cons e r ih => cases e <;> simp [noCleanupIn, ih, Bool.and_assoc]

theorem noCleanupIn_of_ge (p s : Nat) (t : List Ev)
    (h : ∀ a ∈ cleanupAddrs t, p + s ≤ a) :
    noCleanupIn p s t = true := by
  induction t with
  | nil => rfl
  | cons e r ih =>
    cases e with
    | cleanup a =>
      have ha := h a (by simp [cleanupAddrs])
      have hr := ih (fun x hx => h x (by simp [cleanupAddrs, hx]))
      simp [noCleanupIn, hr]
      omega
    | blockFree q l => exact ih (fun x hx => h x (by simp [cleanupAddrs, hx]))

theorem cleanupAddrs_map_cleanup (f : Nat → Nat) (xs : List Nat) :
    cleanupAddrs (xs.map (fun i => Ev.cleanup (f i))) = xs.map f := by
  induction xs with
  | nil => rfl
  | cons a r ih => simp [cleanupAddrs, ih]

theorem freesAfterCleanups_cleanups_prepend (f : Nat → Nat) (xs : List Nat) (t : List Ev) :
    freesAfterCleanups (xs.map (fun i => Ev.cleanup (f i)) ++ t) = freesAfterCleanups t := by
  induction xs with
  | nil => rfl
  | cons a r ih => simp [freesAfterCleanups, ih]

theorem cleanupAddrs_dropBlocks_ge (sz lo : Nat) (bs : List Block)
    (h : ∀ b ∈ bs, lo ≤ b.ptr) (a : Nat)
    (ha : a ∈ cleanupAddrs (dropBlocks sz bs)) : lo ≤ a := by
  induction bs with
  | nil => simp [dropBlocks, cleanupAddrs] at ha
  | cons b rest ih =>
    rw [dropBlocks, cleanupAddrs_append] at ha
    rcases List.mem_append.mp ha with h1 | h2
    · rw [dropBlock, cleanupAddrs_append, cleanupAddrs_map_cleanup] at h1
      simp [cleanupAddrs, List.mem_map] at h1
      rcases h1 with ⟨i, _, rfl⟩
      have := h b (by simp)
      omega
    · exact ih (fun x hx => h x (by simp [hx])) h2

/-- If the blocks of a list sit at strictly increasing, non-overlapping
addresses, teardown releases each block only after every cleanup that
touches its region has already happened. -/
theorem freesAfterCleanups_dropBlocks (sz : Nat) (bs : List Block)
    (h : bs.Pairwise (fun b b' => b.ptr + b.layout.size ≤ b'.ptr)) :
    freesAfterCleanups (dropBlocks sz bs) = true := by
  induction bs with
  | nil => rfl
  | cons b rest ih =>
    rcases List.pairwise_cons.mp h with ⟨hb, hrest⟩
    rw [dropBlocks, dropBlock, List.append_assoc, List.singleton_append,
      freesAfterCleanups_cleanups_prepend]
    show (noCleanupIn b.ptr b.layout.size (dropBlocks sz rest) &&
      freesAfterCleanups (dropBlocks sz rest)) = true
    rw [ih hrest, noCleanupIn_of_ge _ _ _
      (fun a ha => cleanupAddrs_dropBlocks_ge sz (b.ptr + b.layout.size) rest hb a ha)]
    rfl

theorem cleanupAddrs_closedBlocks (sz c : Nat) (L : Layout) (N : Nat) :
    cleanupAddrs (dropBlocks sz ((List.range N).map (fun i => Block.mk (c * i) L 1))) =
      (List.range N).map (fun i => c * i) := by
  induction N with
  | zero => rfl
  | succ n ih =>
    rw [List.range_succ]
    simp [dropBlocks_append, cleanupAddrs_append, ih, dropBlocks, dropBlock,
      cleanupAddrs, List.range_succ]

theorem freeList_closedBlocks (sz c : Nat) (L : Layout) (N : Nat) :
    freeList (dropBlocks sz ((List.range N).map (fun i => Block.mk (c * i) L 1))) =
      (List.range N).map (fun i => (c * i, L)) := by
  induction N with
  | zero => rfl
  | succ n ih =>
    rw [List.range_succ]
    simp [dropBlocks_append, freeList_append, ih, dropBlocks, dropBlock,
      freeList, cleanupAddrs, List.range_succ]

theorem freesAfterCleanups_closedBlocks (sz c : Nat) (L : Layout) (hL : L.size = c) (N : Nat) :
    freesAfterCleanups
      (dropBlocks sz ((List.range N).map (fun i => Block.mk (c * i) L 1))) = true := by
  apply freesAfterCleanups_dropBlocks
  rw [List.pairwise_map]
  apply List.Pairwise.imp ?_ (List.pairwise_lt_range N)
  intro i j hij
  simp only [hL]
  calc c * i + c = c * (i + 1) := by ring
    _ ≤ c * j := Nat.mul_le_mul_left c hij

theorem bytes_le_alloc (elem : Layout) (s : Internal) (sys : Nat) :
    bytes_allocated s ≤ bytes_allocated (Internal.alloc elem s sys).st := by
  unfold bytes_allocated Internal.alloc sysAcquire
  by_cases h : elem.size > s.alloc_bytes_remaining
  · by_cases hle : elem.size ≤ BLOCK_SIZE <;> simp [h, hle]
  · simp [h]

theorem getD_range_map (f : Nat → Nat) (N i d : Nat) (h : i < N) :
    (((List.range N).map f).getD i d) = f i := by
  rw [List.getD_eq_getElem?_getD]
  simp [List.getElem?_map, List.getElem?_range, h]

end Arena

namespace Arena

/-! ## Claim theorems -/

/-- Claim C1, evaluation of the code at the failing input.  The claim says
two allocations of size 8 (which fit together in one default 4096-byte
block) are placed in the same block.  The code instead reuses the new
block's full layout in the allocation epilogue: after a block is created,
`alloc_bytes_remaining` has the whole block capacity subtracted from it
and drops to 0, so every subsequent allocation opens yet another block.
Here: after one size-8 allocation the remaining-bytes count is 0 (not
4096 − 8), and after two size-8 allocations there are two blocks. -/
theorem alloc_layout_bug_splits_blocks :
    8 + 8 ≤ BLOCK_SIZE ∧
    (runAllocs (Layout.mk 8 8) 2).st.blocks.length = 2 ∧
    (runAllocs (Layout.mk 8 8) 1).st.alloc_bytes_remaining = 0 := by decide

/-- Claim C2, evaluation of the code at the failing input.  The claim says
that after an alloc which requests a new block, the remaining-bytes
quantity equals the block capacity minus one element size.  For a size-8
element the new block's capacity is 4096, so the claim predicts
4096 − 8 = 4088 remaining; the code leaves 0, because it subtracts the
mutated block layout's size (4096) instead of the element's size. -/
theorem alloc_newBlock_remaining_is_zero :
    (runAllocs (Layout.mk 8 8) 1).st.alloc_bytes_remaining = 0 ∧
    ((runAllocs (Layout.mk 8 8) 1).st.blocks.map (fun b => b.layout.size)) = [4096] ∧
    (0 : Nat) ≠ 4096 - 8 := by decide

/-- Claim C3, counterexample to the claim as stated: for a zero-sized
element type, one `alloc` call is performed but teardown runs the cleanup
logic zero times, not once, because no block (and hence no element count)
is ever recorded. -/
theorem cleanup_parity_zst_counterexample :
    ¬ cleanupCount (dropTrace 0 (runAllocs (Layout.mk 0 1) 1).st) = 1 := by decide

/-- Claim C3, amended to element types of non-zero size: allocating `N`
elements and tearing the arena down runs the element cleanup logic
exactly `N` times. -/
theorem cleanup_parity (elem : Layout) (h : 0 < elem.size) (N : Nat) :
    cleanupCount (dropTrace elem.size (runAllocs elem N).st) = N := by
  rw [runAllocs_closed elem h N]
  unfold cleanupCount dropTrace
  rw [cleanupAddrs_closedBlocks]
  simp

/-- Witness for `cleanup_parity` at a size-8 element type and `N = 3`. -/
theorem cleanup_parity_witness :
    0 < (Layout.mk 8 8).size ∧
    cleanupCount (dropTrace (Layout.mk 8 8).size (runAllocs (Layout.mk 8 8) 3).st) = 3 :=
  ⟨by decide, cleanup_parity (Layout.mk 8 8) (by decide) 3⟩

/-- Claim C4, counterexample to the claim as stated: for a zero-sized
element type one `alloc` call succeeds (it returns a reference), yet
`bytes_allocated()` still returns 0 because no block was ever requested. -/
theorem bytes_positive_zst_counterexample :
    ¬ 0 < bytes_allocated (runAllocs (Layout.mk 0 1) 1).st := by decide

/-- Claim C4, amended to require a non-zero element size for the strict
positivity part: `bytes_allocated` never decreases across an `alloc`
call (from any state, reachable or not), and after at least one `alloc`
of a non-zero-sized element type it is strictly positive. -/
theorem bytes_monotone_and_positive :
    (∀ elem s sys, bytes_allocated s ≤ bytes_allocated (Internal.alloc elem s sys).st) ∧
    (∀ (elem : Layout) (N : Nat), 0 < elem.size → 1 ≤ N →
      0 < bytes_allocated (runAllocs elem N).st) := by
  refine ⟨bytes_le_alloc, fun elem N h hN => ?_⟩
  rw [runAllocs_closed elem h N]
  unfold bytes_allocated
  have := cap_pos elem h
  exact Nat.mul_pos this hN

/-- Witness for `bytes_monotone_and_positive` at a size-8 element type. -/
theorem bytes_monotone_and_positive_witness :
    bytes_allocated (runAllocs (Layout.mk 8 8) 1).st ≤
      bytes_allocated
        (Internal.alloc (Layout.mk 8 8) (runAllocs (Layout.mk 8 8) 1).st
          (runAllocs (Layout.mk 8 8) 1).sys).st ∧
    0 < (Layout.mk 8 8).size ∧ 1 ≤ 2 ∧
    0 < bytes_allocated (runAllocs (Layout.mk 8 8) 2).st :=
  ⟨bytes_monotone_and_positive.1 _ _ _, by decide, by decide,
    bytes_monotone_and_positive.2 (Layout.mk 8 8) 2 (by decide) (by decide)⟩

/-- Claim C5: teardown of an arena for a non-zero-sized element type after
`N` allocations (1) runs the cleanup logic exactly at the slot addresses
returned by the `alloc` calls, once each, in construction order nested in
block-creation order; (2) releases each block exactly once, in
block-creation order, passing back the block's own base address and the
layout it was acquired with; and (3) never releases a block's memory
before all cleanups inside that block's region have run. -/
theorem teardown_trace_correct (elem : Layout) (h : 0 < elem.size) (N : Nat) :
    cleanupAddrs (dropTrace elem.size (runAllocs elem N).st) = (runAllocs elem N).ptrs ∧
    freeList (dropTrace elem.size (runAllocs elem N).st) =
      (runAllocs elem N).st.blocks.map (fun b => (b.ptr, b.layout)) ∧
    freesAfterCleanups (dropTrace elem.size (runAllocs elem N).st) = true := by
  rw [runAllocs_closed elem h N]
  unfold dropTrace
  refine ⟨?_, ?_, ?_⟩
  · rw [cleanupAddrs_closedBlocks]
  · rw [freeList_closedBlocks]
    simp
  · exact freesAfterCleanups_closedBlocks elem.size (cap elem) (blkLayout elem) rfl N

/-- Witness for `teardown_trace_correct` at a size-8 element type, `N = 2`. -/
theorem teardown_trace_correct_witness :
    0 < (Layout.mk 8 8).size ∧
    (cleanupAddrs (dropTrace (Layout.mk 8 8).size (runAllocs (Layout.mk 8 8) 2).st) =
        (runAllocs (Layout.mk 8 8) 2).ptrs ∧
      freeList (dropTrace (Layout.mk 8 8).size (runAllocs (Layout.mk 8 8) 2).st) =
        (runAllocs (Layout.mk 8 8) 2).st.blocks.map (fun b => (b.ptr, b.layout)) ∧
      freesAfterCleanups (dropTrace (Layout.mk 8 8).size (runAllocs (Layout.mk 8 8) 2).st)
        = true) :=
  ⟨by decide, teardown_trace_correct (Layout.mk 8 8) (by decide) 2⟩

/-- Claim C6: every block ever requested has byte capacity
`max BLOCK_SIZE elem.size`, and when the element is larger than the
default chunk size, each of the `N` allocations creates exactly one
dedicated block sized to fit it (`N` allocations, `N` blocks). -/
theorem block_capacity_max (elem : Layout) (N : Nat) :
    (∀ b ∈ (runAllocs elem N).st.blocks, b.layout.size = max BLOCK_SIZE elem.size) ∧
    (BLOCK_SIZE < elem.size → (runAllocs elem N).st.blocks.length = N) := by
  constructor
  · intro b hb
    rcases Nat.eq_zero_or_pos elem.size with h0 | hpos
    · obtain ⟨sz, al⟩ := elem
      simp at h0
      subst h0
      rw [runAllocs_zst] at hb
      simp [Internal.new] at hb
    · rw [runAllocs_closed elem hpos N] at hb
      simp [List.mem_map] at hb
      rcases hb with ⟨i, _, rfl⟩
      unfold blkLayout
      split
      · next hle => simp; omega
      · next hgt => simp [BLOCK_SIZE] at hgt ⊢; omega
  · intro hgt
    have hpos : 0 < elem.size := by unfold BLOCK_SIZE at hgt; omega
    rw [runAllocs_closed elem hpos N]
    simp

/-- Witness for `block_capacity_max` with an oversized element
(size 5000 > 4096): the one block created has capacity
`max BLOCK_SIZE 5000 = 5000` and one alloc created exactly one block. -/
theorem block_capacity_max_witness :
    (Block.mk 0 (Layout.mk 5000 8) 1).layout.size = max BLOCK_SIZE 5000 ∧
    BLOCK_SIZE < (5000 : Nat) ∧
    (runAllocs (Layout.mk 5000 8) 1).st.blocks.length = 1 :=
  ⟨(block_capacity_max (Layout.mk 5000 8) 1).1 (Block.mk 0 (Layout.mk 5000 8) 1) (by decide),
    by decide, (block_capacity_max (Layout.mk 5000 8) 1).2 (by decide)⟩

/-- Claim C7: for a non-zero-sized element type, any two distinct `alloc`
calls return addresses whose size-`elem.size` regions do not overlap.
Each call performs exactly one in-place write, at the address it returns
(`ptrs` is the write trace), and addresses are never recomputed or moved
afterwards, so region disjointness also means no slot's memory is ever
reused for a different value while the arena lives. -/
theorem slots_disjoint (elem : Layout) (h : 0 < elem.size) (N i j : Nat)
    (hi : i < N) (hj : j < N) (hij : i ≠ j) :
    (runAllocs elem N).ptrs.getD i 0 + elem.size ≤ (runAllocs elem N).ptrs.getD j 0 ∨
    (runAllocs elem N).ptrs.getD j 0 + elem.size ≤ (runAllocs elem N).ptrs.getD i 0 := by
  rw [runAllocs_closed elem h N]
  show ((List.range N).map (fun i => cap elem * i)).getD i 0 + elem.size ≤ _ ∨ _
  rw [getD_range_map _ _ _ _ hi, getD_range_map _ _ _ _ hj]
  have key : ∀ a b : Nat, a < b → cap elem * a + elem.size ≤ cap elem * b := by
    intro a b hab
    calc cap elem * a + elem.size ≤ cap elem * a + cap elem :=
          Nat.add_le_add_left (size_le_cap elem) _
      _ = cap elem * (a + 1) := by ring
      _ ≤ cap elem * b := Nat.mul_le_mul_left _ hab
  rcases Nat.lt_or_ge i j with hlt | hge
  · exact Or.inl (key i j hlt)
  · exact Or.inr (key j i (by omega))

/-- Witness for `slots_disjoint`: the first two allocations of a size-8
element type return non-overlapping regions. -/
theorem slots_disjoint_witness :
    0 < (Layout.mk 8 8).size ∧ (0 : Nat) < 2 ∧ (1 : Nat) < 2 ∧ (0 : Nat) ≠ 1 ∧
    ((runAllocs (Layout.mk 8 8) 2).ptrs.getD 0 0 + (Layout.mk 8 8).size ≤
        (runAllocs (Layout.mk 8 8) 2).ptrs.getD 1 0 ∨
      (runAllocs (Layout.mk 8 8) 2).ptrs.getD 1 0 + (Layout.mk 8 8).size ≤
        (runAllocs (Layout.mk 8 8) 2).ptrs.getD 0 0) :=
  ⟨by decide, by decide, by decide, by decide,
    slots_disjoint (Layout.mk 8 8) (by decide) 2 0 1 (by decide) (by decide) (by decide)⟩

/-- Claim C8: an `Arena::alloc` call made while a mutable borrow of the
arena's internal bookkeeping is already outstanding panics (the
`RefCell` `borrow_mut` failure) and leaves the cell — block list, cursor,
remaining-bytes counter — exactly as it was. -/
theorem reentrant_alloc_panics (elem : Layout) (a : ArenaCell) (sys : Nat)
    (h : a.flag = BorrowState.mutBorrow) :
    arenaAlloc elem a sys = ArenaAllocResult.panicked a := by
  unfold arenaAlloc
  rw [h]

/-- Witness for `reentrant_alloc_panics` on a freshly created arena whose
cell is mutably borrowed. -/
theorem reentrant_alloc_panics_witness :
    (ArenaCell.mk BorrowState.mutBorrow Internal.new).flag = BorrowState.mutBorrow ∧
    arenaAlloc (Layout.mk 8 8) (ArenaCell.mk BorrowState.mutBorrow Internal.new) 0 =
      ArenaAllocResult.panicked (ArenaCell.mk BorrowState.mutBorrow Internal.new) :=
  ⟨rfl, reentrant_alloc_panics (Layout.mk 8 8)
    (ArenaCell.mk BorrowState.mutBorrow Internal.new) 0 rfl⟩

/-- Claim C9, evaluation of the code at the failing input.  The claim says
block requests carry the element type's natural alignment (a valid
alignment).  For an 8-byte, 8-aligned element the code requests the block
with layout `(4096, 0)` — alignment 0, which is neither the natural
alignment 8 nor a valid alignment (alignments must be positive). -/
theorem block_request_alignment_zero :
    ((runAllocs (Layout.mk 8 8) 1).st.blocks.map (fun b => b.layout)) =
      [Layout.mk 4096 0] ∧
    (Layout.mk 8 8).align = 8 ∧ ¬ ((0 : Nat) = 8) ∧ ¬ (0 < (0 : Nat)) := by decide

/-- Claim C10: for a zero-sized element type, no `alloc` call ever reaches
the system allocator: after any number of calls the block list is empty,
the system allocator was never advanced, `bytes_allocated()` is 0, and
teardown runs the cleanup logic zero times. -/
theorem zst_no_blocks (al N : Nat) :
    (runAllocs (Layout.mk 0 al) N).st.blocks = [] ∧
    (runAllocs (Layout.mk 0 al) N).sys = 0 ∧
    bytes_allocated (runAllocs (Layout.mk 0 al) N).st = 0 ∧
    cleanupCount (dropTrace 0 (runAllocs (Layout.mk 0 al) N).st) = 0 := by
  rw [runAllocs_zst]
  refine ⟨rfl, rfl, rfl, rfl⟩

end Arena
